import Mathlib

/-!
Verification development for the Morning Brew newsletter pipeline
(`pipeline.py`, `src/ocr2.py`, `src/text_parse.py`, `src/url_scraper.py`,
`src/pdf_generator_v2.py`).

The Python code is shallowly embedded: external collaborators (browser
renderer, Tesseract OCR, OpenAI API) are parameters, the run directory tree
is an explicit association-list filesystem, and each stage method becomes a
pure function from a `World` to a result, an updated `World`, and a flag
recording whether the stage's external collaborator was invoked.
-/

namespace MBPipe

/-! ## Models of the Python string primitives used by the code -/

/-- Python `str.strip()`: drop whitespace from both ends. -/
def pyStrip (s : String) : String :=
  (((s.data.dropWhile Char.isWhitespace).reverse.dropWhile Char.isWhitespace).reverse).asString

/-- Python `len(s.split())`: number of maximal nonempty runs of
non-whitespace characters. -/
def wordCount (s : String) : Nat :=
  ((s.data.splitOnP Char.isWhitespace).filter (fun w => w ≠ [])).length

/-- Lexicographic comparison of character lists by code point, as Python
compares strings. -/
def charLt : List Char → List Char → Bool
  | [], [] => false
  | [], _ :: _ => true
  | _ :: _, [] => false
  | c :: cs, d :: ds => if c < d then true else if d < c then false else charLt cs ds

/-- Python `s < t` on strings. -/
def pyStrLt (s t : String) : Bool := charLt s.data t.data

/-! ## `ocr2.py` — `PDFTextExtractor`

A PDF is modelled as its list of pages.  Each page carries the text that
direct extraction (`page.get_text()`) yields and the outcome of running the
OCR collaborator (`pytesseract.image_to_string`) on the rasterized page:
`Except.error` models the per-page OCR exception path.  `openOk = false`
models `fitz.open` raising for a corrupt file. -/

/-- Outcome of the per-page OCR collaborator call: `err` models
`pytesseract` raising, `text` a returned string. -/
inductive OcrOutcome where
  | err (msg : String)
  | text (t : String)
deriving Repr, DecidableEq

structure Page where
  directText : String
  ocrResult : OcrOutcome
deriving Repr, DecidableEq

structure Pdf where
  /-- filename without the `.pdf` extension (`pdf_path.stem`) -/
  stem : String
  pages : List Page
  openOk : Bool
deriving Repr, DecidableEq

/-- Model of `pdf_path.name`: the stem plus the `.pdf` extension. -/
def Pdf.fileName (p : Pdf) : String := p.stem ++ ".pdf"

/-- The `f"--- Page {page_num + 1} ---\n{text}"` marker prefix used by both
extraction methods (`n` is already the 1-based page number). -/
def pageMarker (n : Nat) (t : String) : String :=
  "--- Page " ++ toString n ++ " ---\n" ++ t

/-- Per-page parts of `_extract_text_direct`: pages whose embedded text is
nonempty after stripping contribute a marked block, in page order. -/
def directParts (pages : List Page) : List String :=
  pages.enum.filterMap fun ip =>
    if pyStrip ip.2.directText ≠ "" then some (pageMarker (ip.1 + 1) ip.2.directText)
    else none

/-- Model of `_extract_text_direct`: `"\n\n".join(text_parts)`. -/
def extractTextDirect (pdf : Pdf) : String :=
  String.intercalate "\n\n" (directParts pdf.pages)

/-- Per-page parts of `_extract_text_ocr`: a page whose OCR call raises is
skipped; a page whose OCR text is empty after stripping is skipped;
any other page contributes a marked block, in page order. -/
def ocrParts (pages : List Page) : List String :=
  pages.enum.filterMap fun ip =>
    match ip.2.ocrResult with
    | .err _ => none
    | .text t => if pyStrip t ≠ "" then some (pageMarker (ip.1 + 1) t) else none

/-- Model of `_extract_text_ocr`: `"\n\n".join(text_parts)`. -/
def extractTextOcr (pdf : Pdf) : String :=
  String.intercalate "\n\n" (ocrParts pdf.pages)

/-- The extractor's `self.stats` dictionary. -/
structure Stats where
  processed : Nat
  direct_text : Nat
  ocr_used : Nat
  failed : Nat
deriving Repr, DecidableEq

def initStats : Stats := ⟨0, 0, 0, 0⟩

/-- Model of `extract_pdf(pdf_path, force_ocr)`, on a PDF file that exists (inside
`process_directory` the paths come from a glob, so the
`not pdf_path.exists()` early return is unreachable there).  Returns the
extracted text (or `none` on failure) together with the updated stats:
direct extraction is used when `force_ocr` is false and the stripped direct
text is longer than 100 characters; otherwise OCR runs, and an empty OCR
result counts as a failure. -/
def extract_pdf (forceOcr : Bool) (pdf : Pdf) (stats : Stats) :
    Option String × Stats :=
  if pdf.openOk = false then
    (none, { stats with failed := stats.failed + 1 })
  else
    let direct := extractTextDirect pdf
    if forceOcr = false ∧ direct ≠ "" ∧ 100 < (pyStrip direct).length then
      (some direct, { stats with direct_text := stats.direct_text + 1 })
    else
      let text := extractTextOcr pdf
      if text ≠ "" then
        (some text, { stats with ocr_used := stats.ocr_used + 1 })
      else
        (none, { stats with failed := stats.failed + 1 })

/-- A directory of text files: association list from filename stem to file
contents, in directory order. -/
abbrev TextFs := List (String × String)

def fsLookup (fs : TextFs) (k : String) : Option String :=
  (fs.find? (fun p => p.1 = k)).map Prod.snd

/-- Writing `open(path, "w")`: replace the file if present, else append. -/
def fsWrite (fs : TextFs) (k v : String) : TextFs :=
  if (fs.find? (fun p => p.1 = k)).isSome then
    fs.map (fun p => if p.1 = k then (k, v) else p)
  else
    fs ++ [(k, v)]

/-- State threaded through `process_directory`: the output directory
contents, the extractor stats, and the `results` dict (as an ordered list of
key/value pairs keyed by `pdf_path.name`). -/
structure ExtState where
  fs : TextFs
  stats : Stats
  results : List (String × String)
deriving Repr, DecidableEq

/-- One iteration of the `process_directory` loop: if `{stem}.txt` already
exists in the output directory and `force_ocr` is false, the cached text is
returned under the PDF's name and nothing is recomputed; otherwise
`processed` is incremented, `extract_pdf` runs, and on success the text is
written to `{stem}.txt` and recorded under the PDF's name. -/
def processOne (forceOcr : Bool) (st : ExtState) (pdf : Pdf) : ExtState :=
  match fsLookup st.fs pdf.stem, forceOcr with
  | some cached, false =>
      { st with results := st.results ++ [(pdf.fileName, cached)] }
  | _, _ =>
      let stats1 := { st.stats with processed := st.stats.processed + 1 }
      let out := extract_pdf forceOcr pdf stats1
      match out.1 with
      | some text =>
          { fs := fsWrite st.fs pdf.stem text,
            stats := out.2,
            results := st.results ++ [(pdf.fileName, text)] }
      | none => { st with stats := out.2 }

/-- Model of `process_directory`: fold the per-file loop over the globbed PDF list
(an empty directory short-circuits to the same empty result). -/
def process_directory (forceOcr : Bool) (pdfs : List Pdf) (st : ExtState) :
    ExtState :=
  pdfs.foldl (processOne forceOcr) st

/-! ## `text_parse.py` — `NewsletterProcessor`

The OpenAI chat-completion collaborator is modelled by the outcome of each
attempt: a returned message content, a `RateLimitError`, or any other
exception.  `process_document`'s retry loop is embedded together with an
event trace recording each API call and each `time.sleep`. -/

inductive ApiOutcome where
  | success (content : String)
  | rateLimit
  | otherError
deriving Repr, DecidableEq

inductive RetryEv where
  | apiCall (attempt : Nat)
  | sleep (seconds : Nat)
deriving Repr, DecidableEq

def RetryEv.isCall : RetryEv → Bool
  | .apiCall _ => true
  | .sleep _ => false

/-- The `for attempt in range(max_retries)` loop of `process_document`:
`attempt` is the 0-based loop index, the second argument the number of loop
iterations still available.  On success the post-processed content is
returned; a `RateLimitError` sleeps `min(60 * 2 ** attempt, 300)` seconds
and retries; any other exception returns `None` on the last iteration and
otherwise sleeps 5 seconds and retries; falling off the loop returns
`None`. -/
def retryLoop (outcomes : Nat → ApiOutcome) (post : String → String) :
    Nat → Nat → Option String × List RetryEv
  | _, 0 => (none, [])
  | attempt, remaining + 1 =>
    match outcomes attempt with
    | .success c => (some (post c), [.apiCall attempt])
    | .rateLimit =>
        let r := retryLoop outcomes post (attempt + 1) remaining
        (r.1, .apiCall attempt :: .sleep (min (60 * 2 ^ attempt) 300) :: r.2)
    | .otherError =>
        if remaining = 0 then (none, [.apiCall attempt])
        else
          let r := retryLoop outcomes post (attempt + 1) remaining
          (r.1, .apiCall attempt :: .sleep 5 :: r.2)

/-- Model of `process_document` with `max_retries = 3`: the result together with the
trace of API calls and sleeps.  `post` is the date post-processing applied
to a successful completion before returning. -/
def process_document (outcomes : Nat → ApiOutcome) (post : String → String) :
    Option String × List RetryEv :=
  retryLoop outcomes post 0 3

/-- A document loaded by `load_documents`. -/
structure Doc where
  id : String
  filename : String
  text : String
deriving Repr, DecidableEq

/-- One element of `process_batch`'s `results` list (`processed_at`, a wall
clock reading, is not modelled; no claim mentions it). -/
structure SummaryRecord where
  id : String
  filename : String
  summary : String
  date_string : Option String
  word_count : Nat
deriving Repr, DecidableEq

/-- Try to match the regex `On ([^,]+), \d{4}` at the start of `cs`,
returning the full match (`group(0)`).  `[^,]+` cannot cross a comma, so at
a fixed start the match is determined: the maximal comma-free run after
`"On "` must be nonempty and be followed by `", "` and four digits. -/
def matchDateAt (cs : List Char) : Option (List Char) :=
  match cs with
  | 'O' :: 'n' :: ' ' :: rest =>
    let middle := rest.takeWhile (fun c => c ≠ ',')
    if middle = [] then none
    else
      match rest.drop middle.length with
      | ',' :: ' ' :: d1 :: d2 :: d3 :: d4 :: _ =>
        if d1.isDigit ∧ d2.isDigit ∧ d3.isDigit ∧ d4.isDigit then
          some ('O' :: 'n' :: ' ' :: (middle ++ [',', ' ', d1, d2, d3, d4]))
        else none
      | _ => none
  | _ => none

/-- Model of `re.search`: leftmost match of `On ([^,]+), \d{4}`. -/
def searchDate : List Char → Option (List Char)
  | [] => none
  | c :: cs =>
    match matchDateAt (c :: cs) with
    | some m => some m
    | none => searchDate cs

/-- Model of `date_match.group(0) if date_match else None` for
`re.search(r'On ([^,]+), \d{4}', summary)`. -/
def extractDateString (summary : String) : Option String :=
  (searchDate summary.data).map List.asString

/-- The `result` dict built in `process_batch` for a successful summary. -/
def mkRecord (d : Doc) (summary : String) : SummaryRecord :=
  { id := d.id,
    filename := d.filename,
    summary := summary,
    date_string := extractDateString summary,
    word_count := wordCount summary }

/-- The `results` list accumulated by the batch loop, in input order:
documents whose summarization returns `None` are skipped.  `summarize d`
models `process_document(d.text, d.id, d.filename)` run against the API
collaborator. -/
def batchResults (summarize : Doc → Option String) (docs : List Doc) :
    List SummaryRecord :=
  docs.filterMap fun d => (summarize d).map (mkRecord d)

/-- Model of `lambda x: x.get('date_string') or ''`. -/
def sortKey (r : SummaryRecord) : String := r.date_string.getD ""

/-- Stable descending insertion: `x` moves past `y` only when its key is
strictly smaller, so among equal keys the original order is kept, as with
Python's stable `sorted(..., reverse=True)`. -/
def insertDesc (x : SummaryRecord) : List SummaryRecord → List SummaryRecord
  | [] => [x]
  | y :: ys =>
      if pyStrLt (sortKey x) (sortKey y) then y :: insertDesc x ys
      else x :: y :: ys

/-- Model of `sorted(results, key=lambda x: x.get('date_string') or '', reverse=True)`. -/
def sortByDateDesc (rs : List SummaryRecord) : List SummaryRecord :=
  rs.foldr insertDesc []

/-- Model of `process_batch`: the returned (and persisted) result list, sorted
reverse-chronologically by `date_string`. -/
def process_batch (summarize : Doc → Option String) (docs : List Doc) :
    List SummaryRecord :=
  sortByDateDesc (batchResults summarize docs)

/-- Contents of `training_data_combined.txt`: each summary followed by a
blank line, in sorted order. -/
def combinedFile (summarize : Doc → Option String) (docs : List Doc) : String :=
  String.join ((process_batch summarize docs).map (fun r => r.summary ++ "\n\n"))

/-- Model of `load_documents`: every `*.txt` file with nonempty stripped content
becomes a document with `id` the stem and `filename` the stem plus `.txt`. -/
def load_documents (textFs : TextFs) : List Doc :=
  textFs.filterMap fun st =>
    if pyStrip st.2 ≠ "" then some ⟨st.1, st.1 ++ ".txt", st.2⟩ else none

/-! ## `pipeline.py` — `MorningBrewPipeline`

Artifact paths are modelled by their names relative to the run directory's
fixed subdirectories (the `pdfs_dir /` prefix is constant, so
`step_generate_pdfs`'s reload path and first-call return compare equal as
name lists).  `_save_state` is the identity on the model: the persisted
state and the in-memory state coincide after every mutation, exactly as in
the source, where every state mutation is immediately followed by
`_save_state()`. -/

structure Article where
  url : String
  title : String
  date : String
  scraped_at : String
deriving Repr, DecidableEq

/-- Model of `self.state`, as initialized in `__init__` and mutated by the stages. -/
structure RunState where
  status : String
  steps_completed : List String
  urls : List Article
  pdfs : List String
  texts : List String
  processed : List SummaryRecord
deriving Repr, DecidableEq

/-- The pipeline state plus the run directory tree: `urls/urls_latest.json`
(its `articles` field, `none` while the file does not exist), the `pdfs/`
directory, and the `extracted_text/` directory.  A fresh run directory is
timestamped and starts empty, so `pdfs/` holds exactly what the last
rendering pass wrote. -/
structure World where
  state : RunState
  urlsLatest : Option (List Article)
  pdfFs : List Pdf
  textFs : TextFs
deriving Repr, DecidableEq

/-- Model of `step_scrape_urls`.  Here `scraped` is the article list the scraper
collaborator would return.  Result: the returned article list, the updated
world, and whether the scraper was invoked.  The reload path reads
`urls_latest.json`; in every world the pipeline itself produces, the
`scrape_urls` flag implies that file exists (it is written by `save_urls`
before the flag is set), so the `getD []` default of the model is never
read (in the source a missing file raises `FileNotFoundError`). -/
def step_scrape_urls (scraped : List Article) (w : World) :
    List Article × World × Bool :=
  if "scrape_urls" ∈ w.state.steps_completed then
    let arts := w.urlsLatest.getD []
    (arts, { w with state := { w.state with urls := arts } }, false)
  else if scraped ≠ [] then
    let st := { w.state with
      urls := scraped,
      steps_completed := w.state.steps_completed ++ ["scrape_urls"],
      status := "urls_scraped" }
    (scraped, { w with state := st, urlsLatest := some scraped }, true)
  else
    ([], w, true)

/-- Model of `step_generate_pdfs`.  Here `rendered` is the list of PDFs the generator
collaborator successfully produces in `pdfs/` for this call (`process_urls`
returns exactly their paths).  Before invoking the generator the stage
rewrites `urls_latest.json` from `state.urls`. -/
def step_generate_pdfs (rendered : List Pdf) (w : World) :
    List String × World × Bool :=
  if "generate_pdfs" ∈ w.state.steps_completed then
    (w.state.pdfs, w, false)
  else if w.state.urls = [] then
    ([], w, false)
  else
    let names := rendered.map Pdf.fileName
    let st := { w.state with
      pdfs := names,
      steps_completed := w.state.steps_completed ++ ["generate_pdfs"],
      status := "pdfs_generated" }
    (names, { w with state := st, urlsLatest := some w.state.urls, pdfFs := rendered }, true)

/-- Model of `step_extract_text`.  The reload path globs `extracted_text/*.txt` and
keys the results by file stem; the extraction path runs a fresh
`PDFTextExtractor` (stats start at zero) over the `pdfs/` directory and
keys the results by PDF filename. -/
def step_extract_text (forceOcr : Bool) (w : World) :
    List (String × String) × World × Bool :=
  if "extract_text" ∈ w.state.steps_completed then
    (w.textFs, w, false)
  else if w.state.pdfs = [] then
    ([], w, false)
  else
    let st1 := process_directory forceOcr w.pdfFs ⟨w.textFs, initStats, []⟩
    let newState := { w.state with
      texts := st1.results.map Prod.fst,
      steps_completed := w.state.steps_completed ++ ["extract_text"],
      status := "text_extracted" }
    (st1.results, { w with state := newState, textFs := st1.fs }, true)

/-- Model of `step_process_text`.  Here `apiKeyPresent` models `os.getenv("OPENAI_API_KEY")`;
`summarize` the composite `process_document` collaborator; the batch runs
only when the prerequisite, the key and the loaded documents are all
present. -/
def step_process_text (apiKeyPresent : Bool) (summarize : Doc → Option String)
    (w : World) : List SummaryRecord × World × Bool :=
  if "process_text" ∈ w.state.steps_completed then
    (w.state.processed, w, false)
  else if w.state.texts = [] then
    ([], w, false)
  else if apiKeyPresent = false then
    ([], w, false)
  else
    let docs := load_documents w.textFs
    if docs = [] then ([], w, false)
    else
      let results := process_batch summarize docs
      let st := { w.state with
        processed := results,
        steps_completed := w.state.steps_completed ++ ["process_text"],
        status := "completed" }
      (results, { w with state := st }, true)

/-- The collaborators `run_pipeline` threads to the stages. -/
structure Collab where
  scraped : List Article
  rendered : List Pdf
  forceOcr : Bool
  apiKeyPresent : Bool
  summarize : Doc → Option String

def allSteps : List String := ["scrape", "pdf", "ocr", "parse"]

/-- Model of `steps or all_steps`: `None` and the empty list both fall back to the
full canonical list. -/
def requestedSteps : Option (List String) → List String
  | none => allSteps
  | some [] => allSteps
  | some l => l

/-- Tail of `run_pipeline` from the parse stage on: `acc` is the list of
stages executed so far, in execution order. -/
def runFromParse (c : Collab) (steps : List String) (acc : List String)
    (w : World) : List String × World :=
  if "parse" ∈ steps then
    let r := step_process_text c.apiKeyPresent c.summarize w
    (acc ++ ["parse"], r.2.1)
  else (acc, w)

/-- Tail of `run_pipeline` from the ocr stage on: an empty extraction
result stops the pipeline. -/
def runFromOcr (c : Collab) (steps : List String) (acc : List String)
    (w : World) : List String × World :=
  if "ocr" ∈ steps then
    let r := step_extract_text c.forceOcr w
    if r.1 = [] then (acc ++ ["ocr"], r.2.1)
    else runFromParse c steps (acc ++ ["ocr"]) r.2.1
  else runFromParse c steps acc w

/-- Tail of `run_pipeline` from the pdf stage on: an empty PDF list stops
the pipeline. -/
def runFromPdf (c : Collab) (steps : List String) (acc : List String)
    (w : World) : List String × World :=
  if "pdf" ∈ steps then
    let r := step_generate_pdfs c.rendered w
    if r.1 = [] then (acc ++ ["pdf"], r.2.1)
    else runFromOcr c steps (acc ++ ["pdf"]) r.2.1
  else runFromOcr c steps acc w

/-- Model of `run_pipeline(steps, ...)`: the stages run in the fixed order scrape,
pdf, ocr, parse, each guarded by membership in the requested list, with the
early `return results` when a stage yields nothing.  Returns the list of
stages actually executed, in execution order, and the final world. -/
def run_pipeline (c : Collab) (stepsArg : Option (List String)) (w : World) :
    List String × World :=
  let steps := requestedSteps stepsArg
  if "scrape" ∈ steps then
    let r := step_scrape_urls c.scraped w
    if r.1 = [] then (["scrape"], r.2.1)
    else runFromPdf c steps ["scrape"] r.2.1
  else runFromPdf c steps [] w

/-! ## Helper lemmas -/

theorem pyStrip_long_ne_empty {s : String} (h : 100 < (pyStrip s).length) :
    s ≠ "" := by
  intro he
  subst he
  exact absurd h (by decide)

theorem retryLoop_calls_le (o : Nat → ApiOutcome) (p : String → String) :
    ∀ (r a : Nat), ((retryLoop o p a r).2.countP RetryEv.isCall) ≤ r := by
  intro r
  induction r with
  | zero => intro a; simp [retryLoop]
  | succ n ih =>
    intro a
    cases h : o a with
    | success c =>
      simp [retryLoop, h, List.countP_cons, RetryEv.isCall]
    | rateLimit =>
      simpa [retryLoop, h, List.countP_cons, RetryEv.isCall] using ih (a + 1)
    | otherError =>
      by_cases hn : n = 0
      · simp [retryLoop, h, hn, List.countP_cons, RetryEv.isCall]
      · simpa [retryLoop, h, hn, List.countP_cons, RetryEv.isCall] using ih (a + 1)

theorem retryLoop_rateLimit_sleep (o : Nat → ApiOutcome) (p : String → String) :
    ∀ (r a k : Nat), RetryEv.apiCall k ∈ (retryLoop o p a r).2 →
      o k = ApiOutcome.rateLimit →
      List.IsInfix [RetryEv.apiCall k, RetryEv.sleep (min (60 * 2 ^ k) 300)]
        (retryLoop o p a r).2 := by
  intro r
  induction r with
  | zero => intro a k hmem _; simp [retryLoop] at hmem
  | succ n ih =>
    intro a k hmem hk
    cases h : o a with
    | success c =>
      simp [retryLoop, h] at hmem
      subst hmem
      rw [hk] at h
      exact absurd h (by simp)
    | rateLimit =>
      by_cases hak : k = a
      · subst hak
        refine ⟨[], (retryLoop o p (k + 1) n).2, ?_⟩
        simp [retryLoop, h]
      · have hmem2 : RetryEv.apiCall k ∈ (retryLoop o p (a + 1) n).2 := by
          simp [retryLoop, h] at hmem
          rcases hmem with h1 | h1
          · exact absurd h1 (by simp [hak])
          · exact h1
        have := ih (a + 1) k hmem2 hk
        rcases this with ⟨s, t, hst⟩
        refine ⟨RetryEv.apiCall a :: RetryEv.sleep (min (60 * 2 ^ a) 300) :: s, t, ?_⟩
        simp [retryLoop, h, ← hst]
    | otherError =>
      by_cases hn : n = 0
      · simp [retryLoop, h, hn] at hmem
        subst hmem
        rw [hk] at h
        exact absurd h (by simp)
      · by_cases hak : k = a
        · subst hak
          rw [hk] at h
          exact absurd h (by simp)
        · have hmem2 : RetryEv.apiCall k ∈ (retryLoop o p (a + 1) n).2 := by
            simp [retryLoop, h, hn] at hmem
            rcases hmem with h1 | h1
            · exact absurd h1 (by simp [hak])
            · exact h1
          have := ih (a + 1) k hmem2 hk
          rcases this with ⟨s, t, hst⟩
          refine ⟨RetryEv.apiCall a :: RetryEv.sleep 5 :: s, t, ?_⟩
          simp [retryLoop, h, hn, ← hst]

/-! ## Claim theorems -/

/-- C2: in `process_document`, every rate-limit failure on 0-based attempt
`k` is immediately followed by a sleep of exactly `min(60 * 2 ** k, 300)`
seconds (so the waits for the three attempts are 60, 120 and 240 seconds);
at most 3 API attempts are made; and when every attempt is rate-limited the
function sleeps after the third failure as well and then returns `None`
without raising. -/
theorem C2_rate_limit_backoff (outcomes : Nat → ApiOutcome) (post : String → String) :
    ((process_document outcomes post).2.countP RetryEv.isCall) ≤ 3 ∧
    (∀ k, RetryEv.apiCall k ∈ (process_document outcomes post).2 →
      outcomes k = ApiOutcome.rateLimit →
      List.IsInfix [RetryEv.apiCall k, RetryEv.sleep (min (60 * 2 ^ k) 300)]
        (process_document outcomes post).2) ∧
    ((∀ k, outcomes k = ApiOutcome.rateLimit) →
      process_document outcomes post =
        (none, [RetryEv.apiCall 0, RetryEv.sleep 60, RetryEv.apiCall 1,
                RetryEv.sleep 120, RetryEv.apiCall 2, RetryEv.sleep 240])) := by
  refine ⟨retryLoop_calls_le outcomes post 3 0,
          fun k => retryLoop_rateLimit_sleep outcomes post 3 0 k,
          fun h => ?_⟩
  simp [process_document, retryLoop, h 0, h 1, h 2]

/-- C2 witness: all three attempts rate-limited, waits 60, 120, 240, then
`None`. -/
theorem C2_rate_limit_backoff_witness :
    process_document (fun _ => ApiOutcome.rateLimit) id =
      (none, [RetryEv.apiCall 0, RetryEv.sleep 60, RetryEv.apiCall 1,
              RetryEv.sleep 120, RetryEv.apiCall 2, RetryEv.sleep 240]) :=
  (C2_rate_limit_backoff (fun _ => ApiOutcome.rateLimit) id).2.2 (fun _ => rfl)

/-- C3: with `force_ocr` false, a document whose stripped direct-extraction
text is longer than 100 characters is returned via the direct method with
`direct_text` incremented; at 100 characters or fewer, extraction always
falls back to OCR (whose outcome decides between `ocr_used` and `failed`). -/
theorem C3_extraction_threshold (pdf : Pdf) (stats : Stats)
    (hopen : pdf.openOk = true) :
    (100 < (pyStrip (extractTextDirect pdf)).length →
      extract_pdf false pdf stats =
        (some (extractTextDirect pdf),
         { stats with direct_text := stats.direct_text + 1 })) ∧
    ((pyStrip (extractTextDirect pdf)).length ≤ 100 →
      extract_pdf false pdf stats =
        (if extractTextOcr pdf ≠ "" then
          (some (extractTextOcr pdf), { stats with ocr_used := stats.ocr_used + 1 })
         else
          (none, { stats with failed := stats.failed + 1 }))) := by
  constructor
  · intro h
    simp [extract_pdf, hopen, pyStrip_long_ne_empty h, h]
  · intro h
    have hnot : ¬ 100 < (pyStrip (extractTextDirect pdf)).length := by omega
    simp only [extract_pdf, hopen]
    simp [hnot]

def pdfC3 : Pdf :=
  ⟨"long", [⟨"0123456789012345678901234567890123456789012345678901234567890123456789012345678901234567890123456789012345678901234567890", OcrOutcome.err "tesseract"⟩], true⟩

set_option maxRecDepth 8192 in
/-- C3 witness: a one-page document with 121 characters of embedded text is
extracted directly. -/
theorem C3_extraction_threshold_witness :
    extract_pdf false pdfC3 initStats =
      (some (extractTextDirect pdfC3),
       { initStats with direct_text := initStats.direct_text + 1 }) :=
  (C3_extraction_threshold pdfC3 initStats rfl).1 (by decide)

/-- C4: each stage after discovery, when not already completed and with its
required upstream artifact list empty, returns an empty result and leaves
the world (state, `steps_completed`, `status`, artifact lists) entirely
unchanged, without invoking its collaborator. -/
theorem C4_prerequisite_check (w : World) (rendered : List Pdf)
    (forceOcr apiKey : Bool) (summarize : Doc → Option String) :
    (¬ "generate_pdfs" ∈ w.state.steps_completed → w.state.urls = [] →
      step_generate_pdfs rendered w = ([], w, false)) ∧
    (¬ "extract_text" ∈ w.state.steps_completed → w.state.pdfs = [] →
      step_extract_text forceOcr w = ([], w, false)) ∧
    (¬ "process_text" ∈ w.state.steps_completed → w.state.texts = [] →
      step_process_text apiKey summarize w = ([], w, false)) := by
  refine ⟨fun h1 h2 => ?_, fun h1 h2 => ?_, fun h1 h2 => ?_⟩
  · simp [step_generate_pdfs, h1, h2]
  · simp [step_extract_text, h1, h2]
  · simp [step_process_text, h1, h2]

def emptyWorld : World :=
  { state := { status := "initialized", steps_completed := [], urls := [],
               pdfs := [], texts := [], processed := [] },
    urlsLatest := none, pdfFs := [], textFs := [] }

/-- C4 witness: on a freshly initialized run state, all three downstream
stages fail fast without mutating anything. -/
theorem C4_prerequisite_check_witness :
    step_generate_pdfs [] emptyWorld = ([], emptyWorld, false) ∧
    step_extract_text false emptyWorld = ([], emptyWorld, false) ∧
    step_process_text true (fun _ => none) emptyWorld = ([], emptyWorld, false) :=
  ⟨(C4_prerequisite_check emptyWorld [] false true (fun _ => none)).1
      (by decide) rfl,
   (C4_prerequisite_check emptyWorld [] false true (fun _ => none)).2.1
      (by decide) rfl,
   (C4_prerequisite_check emptyWorld [] false true (fun _ => none)).2.2
      (by decide) rfl⟩

/-- C10: with URLs present and the stage not yet completed,
`step_generate_pdfs` records completion (appends the stage name, sets the
status, persists) even when the rendering collaborator produces zero PDFs. -/
theorem C10_empty_render_completes (w : World)
    (hnot : ¬ "generate_pdfs" ∈ w.state.steps_completed)
    (hurls : w.state.urls ≠ []) :
    step_generate_pdfs [] w =
      ([],
       { w with
          state := { w.state with
            pdfs := [],
            steps_completed := w.state.steps_completed ++ ["generate_pdfs"],
            status := "pdfs_generated" },
          urlsLatest := some w.state.urls,
          pdfFs := [] },
       true) := by
  simp [step_generate_pdfs, hnot, hurls]

def c10Article : Article := ⟨"https://x.test/a", "A", "Sep 7 2025", "t0"⟩

def c10World : World :=
  { state := { status := "urls_scraped", steps_completed := ["scrape_urls"],
               urls := [c10Article], pdfs := [], texts := [], processed := [] },
    urlsLatest := some [c10Article], pdfFs := [], textFs := [] }

/-- C10 witness: a run with one scraped URL whose rendering produces no
PDFs still marks `generate_pdfs` complete. -/
theorem C10_empty_render_completes_witness :
    step_generate_pdfs [] c10World =
      ([],
       { c10World with
          state := { c10World.state with
            pdfs := [],
            steps_completed := c10World.state.steps_completed ++ ["generate_pdfs"],
            status := "pdfs_generated" },
          urlsLatest := some c10World.state.urls,
          pdfFs := [] },
       true) :=
  C10_empty_render_completes c10World (by decide) (by decide)

theorem runFromParse_exec (c : Collab) (steps acc : List String) (w : World) :
    (runFromParse c steps acc w).1 = acc ∨
    (runFromParse c steps acc w).1 = acc ++ ["parse"] := by
  by_cases h : "parse" ∈ steps
  · right; simp [runFromParse, h]
  · left; simp [runFromParse, h]

theorem runFromOcr_exec (c : Collab) (steps acc : List String) (w : World) :
    ∃ t, (runFromOcr c steps acc w).1 = acc ++ t ∧ t.Sublist ["ocr", "parse"] := by
  by_cases h : "ocr" ∈ steps
  · by_cases he : (step_extract_text c.forceOcr w).1 = []
    · exact ⟨["ocr"], by simp [runFromOcr, h, he], by decide⟩
    · rcases runFromParse_exec c steps (acc ++ ["ocr"])
        (step_extract_text c.forceOcr w).2.1 with h1 | h1
      · exact ⟨["ocr"], by simp [runFromOcr, h, he, h1], by decide⟩
      · refine ⟨["ocr", "parse"], ?_, by decide⟩
        simp [runFromOcr, h, he, h1]
  · rcases runFromParse_exec c steps acc w with h1 | h1
    · exact ⟨[], by simp [runFromOcr, h, h1], by decide⟩
    · exact ⟨["parse"], by simp [runFromOcr, h, h1], by decide⟩

theorem runFromPdf_exec (c : Collab) (steps acc : List String) (w : World) :
    ∃ t, (runFromPdf c steps acc w).1 = acc ++ t ∧
      t.Sublist ["pdf", "ocr", "parse"] := by
  by_cases h : "pdf" ∈ steps
  · by_cases he : (step_generate_pdfs c.rendered w).1 = []
    · exact ⟨["pdf"], by simp [runFromPdf, h, he], by decide⟩
    · rcases runFromOcr_exec c steps (acc ++ ["pdf"])
        (step_generate_pdfs c.rendered w).2.1 with ⟨t, h1, h2⟩
      refine ⟨"pdf" :: t, ?_, List.Sublist.cons₂ "pdf" h2⟩
      simp [runFromPdf, h, he, h1]
  · rcases runFromOcr_exec c steps acc w with ⟨t, h1, h2⟩
    refine ⟨t, by simp [runFromPdf, h, h1], ?_⟩
    exact h2.trans (by decide)

/-- C6: whatever subset of stages is requested (in whatever order), the
stages `run_pipeline` actually executes form a subsequence of the canonical
order scrape, pdf, ocr, parse. -/
theorem C6_canonical_stage_order (c : Collab) (stepsArg : Option (List String))
    (w : World) : (run_pipeline c stepsArg w).1.Sublist allSteps := by
  by_cases hs : "scrape" ∈ requestedSteps stepsArg
  · by_cases he : (step_scrape_urls c.scraped w).1 = []
    · have : (run_pipeline c stepsArg w).1 = ["scrape"] := by
        simp [run_pipeline, hs, he]
      rw [this]; decide
    · rcases runFromPdf_exec c (requestedSteps stepsArg) ["scrape"]
        (step_scrape_urls c.scraped w).2.1 with ⟨t, h1, h2⟩
      have : (run_pipeline c stepsArg w).1 = "scrape" :: t := by
        simp [run_pipeline, hs, he, h1]
      rw [this]
      exact List.Sublist.cons₂ "scrape" h2
  · rcases runFromPdf_exec c (requestedSteps stepsArg) [] w with ⟨t, h1, h2⟩
    have : (run_pipeline c stepsArg w).1 = t := by
      simp [run_pipeline, hs, h1]
    rw [this]
    exact h2.trans (by decide)

/-- C7: during OCR extraction a per-page collaborator failure is skipped —
every page with a successful, nonempty OCR result contributes its marked
block to the output no matter what happens on the other pages — and a
document whose every page fails OCR or yields only whitespace, and whose
direct extraction is at or below the threshold, is an extraction failure:
`extract_pdf` returns `none` and increments `failed`. -/
theorem C7_ocr_page_failures (pdf : Pdf) (stats : Stats) :
    (∀ (i : Nat) (hi : i < pdf.pages.length) (t : String),
        (pdf.pages.get ⟨i, hi⟩).ocrResult = OcrOutcome.text t → pyStrip t ≠ "" →
        pageMarker (i + 1) t ∈ ocrParts pdf.pages) ∧
    (pdf.openOk = true →
     (∀ pg ∈ pdf.pages, ∀ t, pg.ocrResult = OcrOutcome.text t → pyStrip t = "") →
     (pyStrip (extractTextDirect pdf)).length ≤ 100 →
     extract_pdf false pdf stats =
       (none, { stats with failed := stats.failed + 1 })) := by
  constructor
  · intro i hi t ht hne
    apply List.mem_filterMap.mpr
    refine ⟨(i, pdf.pages.get ⟨i, hi⟩), ?_, ?_⟩
    · exact List.mk_mem_enum_iff_get?.mpr (List.get?_eq_get hi)
    · rw [List.get_eq_getElem] at ht
      simp [ht, hne]
  · intro hopen hall hlen
    have hocr : ocrParts pdf.pages = [] := by
      apply List.filterMap_eq_nil.mpr
      intro ip hip
      have hmem : ip.2 ∈ pdf.pages :=
        List.get?_mem (List.mem_enum_iff_get?.mp hip)
      cases hres : ip.2.ocrResult with
      | err m => simp [hres]
      | text t => simp [hres, hall ip.2 hmem t hres]
    have hocrText : extractTextOcr pdf = "" := by
      simp [extractTextOcr, hocr, String.intercalate]
    have hnot : ¬ 100 < (pyStrip (extractTextDirect pdf)).length := by omega
    simp [extract_pdf, hopen, hnot, hocrText]

def c7Pdf : Pdf :=
  ⟨"w", [⟨"", OcrOutcome.err "boom"⟩, ⟨"", OcrOutcome.text "recovered text"⟩], true⟩

def c7PdfBad : Pdf :=
  ⟨"b", [⟨"tiny", OcrOutcome.err "boom"⟩, ⟨"", OcrOutcome.text " "⟩], true⟩

/-- C7 witness: a failing first page does not stop the second page's text
from appearing, and a document whose pages all fail or yield whitespace is
counted failed. -/
theorem C7_ocr_page_failures_witness :
    pageMarker 2 "recovered text" ∈ ocrParts c7Pdf.pages ∧
    extract_pdf false c7PdfBad initStats =
      (none, { initStats with failed := initStats.failed + 1 }) :=
  ⟨(C7_ocr_page_failures c7Pdf initStats).1 1 (by decide) "recovered text"
      rfl (by decide),
   (C7_ocr_page_failures c7PdfBad initStats).2 rfl
      (by
        intro pg hpg t ht
        simp [c7PdfBad] at hpg
        rcases hpg with h | h <;> subst h <;> simp_all
        subst ht
        decide)
      (by decide)⟩

theorem mem_insertDesc {x y : SummaryRecord} {l : List SummaryRecord} :
    x ∈ insertDesc y l ↔ x = y ∨ x ∈ l := by
  induction l with
  | nil => simp [insertDesc]
  | cons z zs ih =>
    by_cases h : pyStrLt (sortKey y) (sortKey z) = true
    · simp only [insertDesc, h, if_true, List.mem_cons, ih]
      tauto
    · simp only [insertDesc, h, if_false, Bool.false_eq_true, List.mem_cons]

theorem mem_sortByDateDesc {x : SummaryRecord} {l : List SummaryRecord} :
    x ∈ sortByDateDesc l ↔ x ∈ l := by
  induction l with
  | nil => simp [sortByDateDesc]
  | cons y ys ih =>
    show x ∈ insertDesc y (sortByDateDesc ys) ↔ _
    rw [mem_insertDesc, ih]
    simp

/-- C8: every record produced by `process_batch` has
`word_count = len(summary.split())`. -/
theorem C8_word_count_invariant (summarize : Doc → Option String)
    (docs : List Doc) (r : SummaryRecord)
    (h : r ∈ process_batch summarize docs) :
    r.word_count = wordCount r.summary := by
  have h2 : r ∈ batchResults summarize docs := by
    rw [process_batch] at h
    exact mem_sortByDateDesc.mp h
  rcases List.mem_filterMap.mp h2 with ⟨d, _, hmap⟩
  rcases Option.map_eq_some'.mp hmap with ⟨s, _, hr⟩
  subst hr
  rfl

def c8Doc : Doc := ⟨"d", "d.txt", "raw text"⟩

/-- C8 witness: a two-word summary yields `word_count = 2`. -/
theorem C8_word_count_invariant_witness :
    (mkRecord c8Doc "hello world").word_count =
      wordCount (mkRecord c8Doc "hello world").summary :=
  C8_word_count_invariant (fun _ => some "hello world") [c8Doc]
    (mkRecord c8Doc "hello world") (by decide)

/-- The statistics invariant: every processed document is accounted for by
exactly one of the three outcome counters. -/
def balanced (s : Stats) : Prop :=
  s.processed = s.direct_text + s.ocr_used + s.failed

instance balancedDecidable (s : Stats) : Decidable (balanced s) :=
  inferInstanceAs (Decidable (s.processed = s.direct_text + s.ocr_used + s.failed))

theorem extract_pdf_stats (fo : Bool) (pdf : Pdf) (stats : Stats) :
    (extract_pdf fo pdf stats).2.processed = stats.processed ∧
    (extract_pdf fo pdf stats).2.direct_text + (extract_pdf fo pdf stats).2.ocr_used +
        (extract_pdf fo pdf stats).2.failed
      = stats.direct_text + stats.ocr_used + stats.failed + 1 := by
  by_cases h1 : pdf.openOk = false
  · simp [extract_pdf, h1]
    omega
  · by_cases h2 : fo = false ∧ extractTextDirect pdf ≠ "" ∧
        100 < (pyStrip (extractTextDirect pdf)).length
    · simp [extract_pdf, h1, h2]
      omega
    · by_cases h3 : extractTextOcr pdf ≠ ""
      · simp [extract_pdf, h1, h2, h3]
        omega
      · simp [extract_pdf, h1, h2, h3]
        omega

theorem processOne_cached (fo : Bool) (st : ExtState) (pdf : Pdf)
    (h : fsLookup st.fs pdf.stem ≠ none) (hfo : fo = false) :
    (processOne fo st pdf).stats = st.stats := by
  subst hfo
  rcases ho : fsLookup st.fs pdf.stem with _ | c
  · exact absurd ho h
  · simp [processOne, ho]

theorem processOne_fresh (fo : Bool) (st : ExtState) (pdf : Pdf)
    (h : fsLookup st.fs pdf.stem = none ∨ fo = true) :
    (processOne fo st pdf).stats.processed = st.stats.processed + 1 ∧
    (processOne fo st pdf).stats.direct_text + (processOne fo st pdf).stats.ocr_used +
        (processOne fo st pdf).stats.failed
      = st.stats.direct_text + st.stats.ocr_used + st.stats.failed + 1 := by
  have hstats := extract_pdf_stats fo pdf { st.stats with processed := st.stats.processed + 1 }
  have hred : (processOne fo st pdf).stats =
      (extract_pdf fo pdf { st.stats with processed := st.stats.processed + 1 }).2 := by
    rcases ho : fsLookup st.fs pdf.stem with _ | c
    · simp only [processOne, ho]
      rcases hout : (extract_pdf fo pdf { st.stats with processed := st.stats.processed + 1 }).1
        with _ | t <;> simp [hout]
    · rcases h with h | h
      · exact absurd ho (by simp [h])
      · subst h
        simp only [processOne, ho]
        rcases hout : (extract_pdf true pdf { st.stats with processed := st.stats.processed + 1 }).1
          with _ | t <;> simp [hout]
  rw [hred]
  exact ⟨by rw [hstats.1], by rw [hstats.2]⟩

theorem processOne_balanced (fo : Bool) (st : ExtState) (pdf : Pdf)
    (h : balanced st.stats) : balanced (processOne fo st pdf).stats := by
  by_cases hc : fsLookup st.fs pdf.stem ≠ none ∧ fo = false
  · rw [processOne_cached fo st pdf hc.1 hc.2]
    exact h
  · have hfresh : fsLookup st.fs pdf.stem = none ∨ fo = true := by
      rcases ho : fsLookup st.fs pdf.stem with _ | c
      · exact Or.inl rfl
      · right
        rcases fo with _ | _
        · exact absurd ⟨by simp [ho], rfl⟩ hc
        · rfl
    have := processOne_fresh fo st pdf hfresh
    unfold balanced at h ⊢
    omega

theorem process_directory_balanced (fo : Bool) :
    ∀ (l : List Pdf) (st : ExtState), balanced st.stats →
      balanced (process_directory fo l st).stats := by
  intro l
  induction l with
  | nil => intro st h; simpa [process_directory] using h
  | cons p ps ih =>
    intro st h
    have h1 := processOne_balanced fo st p h
    simpa [process_directory] using ih (processOne fo st p) h1

/-- C9: the per-file loop of `process_directory` maintains
`processed = direct_text + ocr_used + failed`: the loop over `l₁ ++ l₂`
passes through the state reached after `l₁`, a cached file leaves the stats
untouched, a non-cached file increments `processed` and exactly one outcome
counter, and the invariant is preserved through any prefix of the loop. -/
theorem C9_stats_invariant (fo : Bool) (st : ExtState) (l₁ l₂ : List Pdf) :
    process_directory fo (l₁ ++ l₂) st =
      process_directory fo l₂ (process_directory fo l₁ st) ∧
    (∀ (s : ExtState) (pdf : Pdf), fsLookup s.fs pdf.stem ≠ none → fo = false →
      (processOne fo s pdf).stats = s.stats) ∧
    (∀ (s : ExtState) (pdf : Pdf), fsLookup s.fs pdf.stem = none ∨ fo = true →
      (processOne fo s pdf).stats.processed = s.stats.processed + 1 ∧
      (processOne fo s pdf).stats.direct_text + (processOne fo s pdf).stats.ocr_used +
          (processOne fo s pdf).stats.failed
        = s.stats.direct_text + s.stats.ocr_used + s.stats.failed + 1) ∧
    (balanced st.stats → balanced (process_directory fo l₁ st).stats) := by
  refine ⟨?_, fun s pdf h hfo => processOne_cached fo s pdf h hfo,
          fun s pdf h => processOne_fresh fo s pdf h,
          fun h => process_directory_balanced fo l₁ st h⟩
  simp [process_directory, List.foldl_append]

/-- C9 witness: one fresh document (which fails extraction: no embedded
text, OCR error) keeps the stats balanced. -/
theorem C9_stats_invariant_witness :
    balanced (process_directory false [⟨"p", [⟨"", OcrOutcome.err "e"⟩], true⟩]
        ⟨[], initStats, []⟩).stats :=
  (C9_stats_invariant false ⟨[], initStats, []⟩
      [⟨"p", [⟨"", OcrOutcome.err "e"⟩], true⟩] []).2.2.2 (by decide)

theorem charLt_asymm : ∀ a b, charLt a b = true → charLt b a = false := by
  intro a
  induction a with
  | nil =>
    intro b h
    cases b with
    | nil => simp [charLt] at h
    | cons y ys => simp [charLt]
  | cons x xs ih =>
    intro b h
    cases b with
    | nil => simp [charLt] at h
    | cons y ys =>
      by_cases hxy : x < y
      · simp [charLt, lt_asymm hxy, hxy]
      · by_cases hyx : y < x
        · simp [charLt, hxy, hyx] at h
        · have hx : charLt xs ys = true := by simpa [charLt, hxy, hyx] using h
          simp [charLt, hxy, hyx, ih ys hx]

theorem charLt_false_trans :
    ∀ a b c, charLt a b = false → charLt b c = false → charLt a c = false := by
  intro a
  induction a with
  | nil =>
    intro b c hab hbc
    cases b with
    | nil =>
      cases c with
      | nil => simp [charLt]
      | cons z zs => simp [charLt] at hbc
    | cons y ys => simp [charLt] at hab
  | cons x xs ih =>
    intro b c hab hbc
    cases c with
    | nil => simp [charLt]
    | cons z zs =>
      cases b with
      | nil => simp [charLt] at hbc
      | cons y ys =>
        by_cases hxy : x < y
        · simp [charLt, hxy] at hab
        · by_cases hyz : y < z
          · simp [charLt, hyz] at hbc
          · have hxz : ¬ x < z := fun h =>
              absurd (lt_of_lt_of_le (lt_of_lt_of_le h (le_of_not_lt hyz))
                  (le_of_not_lt hxy)) (lt_irrefl x)
            by_cases hzx : z < x
            · simp [charLt, hxz, hzx]
            · have hex : x = z := le_antisymm (le_of_not_lt hzx) (le_of_not_lt hxz)
              have hyx : ¬ y < x := fun h => hyz (hex ▸ h)
              have hzy : ¬ z < y := fun h => hxy (hex.symm ▸ h)
              have htab : charLt xs ys = false := by simpa [charLt, hxy, hyx] using hab
              have htbc : charLt ys zs = false := by simpa [charLt, hyz, hzy] using hbc
              simp [charLt, hxz, hzx, ih ys zs htab htbc]

theorem pyStrLt_asymm {s t : String} (h : pyStrLt s t = true) :
    pyStrLt t s = false :=
  charLt_asymm s.data t.data h

theorem pyStrLt_false_trans {s t u : String} (h1 : pyStrLt s t = false)
    (h2 : pyStrLt t u = false) : pyStrLt s u = false :=
  charLt_false_trans s.data t.data u.data h1 h2

theorem pairwise_insertDesc (x : SummaryRecord) (l : List SummaryRecord)
    (hl : l.Pairwise (fun a b => pyStrLt (sortKey a) (sortKey b) = false)) :
    (insertDesc x l).Pairwise
      (fun a b => pyStrLt (sortKey a) (sortKey b) = false) := by
  induction l with
  | nil => simp [insertDesc]
  | cons y ys ih =>
    rw [List.pairwise_cons] at hl
    obtain ⟨hy, hys⟩ := hl
    by_cases h : pyStrLt (sortKey x) (sortKey y) = true
    · rw [insertDesc, if_pos h, List.pairwise_cons]
      refine ⟨?_, ih hys⟩
      intro z hz
      rcases mem_insertDesc.mp hz with rfl | hz2
      · exact pyStrLt_asymm h
      · exact hy z hz2
    · rw [insertDesc, if_neg h, List.pairwise_cons]
      have hxy : pyStrLt (sortKey x) (sortKey y) = false := by simpa using h
      refine ⟨?_, List.pairwise_cons.mpr ⟨hy, hys⟩⟩
      intro z hz
      rcases List.mem_cons.mp hz with rfl | hz2
      · exact hxy
      · exact pyStrLt_false_trans hxy (hy z hz2)

theorem pairwise_sortByDateDesc (l : List SummaryRecord) :
    (sortByDateDesc l).Pairwise
      (fun a b => pyStrLt (sortKey a) (sortKey b) = false) := by
  induction l with
  | nil => simp [sortByDateDesc]
  | cons y ys ih => exact pairwise_insertDesc y (sortByDateDesc ys) ih

theorem matchDateAt_ne_nil : ∀ (cs m : List Char), matchDateAt cs = some m → m ≠ [] := by
  intro cs m h
  unfold matchDateAt at h
  split at h
  · simp only [] at h
    split at h
    · exact absurd h (by simp)
    · split at h
      · split at h
        · simp only [Option.some.injEq] at h
          subst h
          simp
        · exact absurd h (by simp)
      · exact absurd h (by simp)
  · exact absurd h (by simp)

theorem searchDate_ne_nil : ∀ (cs m : List Char), searchDate cs = some m → m ≠ [] := by
  intro cs
  induction cs with
  | nil => intro m h; simp [searchDate] at h
  | cons c cs ih =>
    intro m h
    unfold searchDate at h
    rcases hm : matchDateAt (c :: cs) with _ | m2
    · rw [hm] at h
      exact ih m h
    · rw [hm] at h
      simp only [Option.some.injEq] at h
      subst h
      exact matchDateAt_ne_nil _ _ hm

theorem data_nil_eq_empty {s : String} (h : s.data = []) : s = "" := by
  cases s
  simp_all

theorem extractDateString_ne_some_empty (s : String) :
    extractDateString s ≠ some "" := by
  unfold extractDateString
  rcases h : searchDate s.data with _ | m
  · simp
  · simp only [Option.map_some', ne_eq, Option.some.injEq]
    intro he
    have hm : m = [] := by
      have : m.asString.data = m := by simp [List.asString]
      rw [he] at this
      exact this.symm
    exact searchDate_ne_nil s.data m h hm

def c5Summary1 : String := "On June 1, 2024, Morning Brew reported alpha."

def c5Summary3 : String := "On June 3, 2024, Morning Brew reported beta."

def c5SummaryN : String := "No date appears in this summary."

def c5Doc1 : Doc := ⟨"d1", "d1.txt", "text one"⟩

def c5Doc3 : Doc := ⟨"d3", "d3.txt", "text three"⟩

def c5DocN : Doc := ⟨"dn", "dn.txt", "text none"⟩

def c5Docs : List Doc := [c5Doc1, c5Doc3, c5DocN]

def c5Summarize : Doc → Option String := fun d =>
  if d.id = "d1" then some c5Summary1
  else if d.id = "d3" then some c5Summary3
  else if d.id = "dn" then some c5SummaryN
  else none

set_option maxRecDepth 8192 in
/-- C5: the records `process_batch` returns (and writes to the combined
output) are sorted by `date_string` in descending lexicographic order on
the extracted `"On <date>, <year>"` string, records with a missing
`date_string` sort last, and on summaries dated June 1, June 3 and undated
the output order is June 3, June 1, undated. -/
theorem C5_combined_output_sorted (summarize : Doc → Option String)
    (docs : List Doc) :
    List.Pairwise (fun a b => pyStrLt (sortKey a) (sortKey b) = false)
      (process_batch summarize docs) ∧
    (∀ (l₁ l₂ : List SummaryRecord) (a b : SummaryRecord),
        process_batch summarize docs = l₁ ++ a :: l₂ → b ∈ l₂ →
        a.date_string = none → b.date_string = none) ∧
    process_batch c5Summarize c5Docs =
      [mkRecord c5Doc3 c5Summary3, mkRecord c5Doc1 c5Summary1,
       mkRecord c5DocN c5SummaryN] := by
  refine ⟨pairwise_sortByDateDesc _, ?_, by decide⟩
  intro l₁ l₂ a b heq hb ha
  have hpw := pairwise_sortByDateDesc (batchResults summarize docs)
  rw [show sortByDateDesc (batchResults summarize docs)
        = process_batch summarize docs from rfl, heq] at hpw
  have hR : pyStrLt (sortKey a) (sortKey b) = false := by
    rcases (List.pairwise_append.mp hpw) with ⟨_, hpw2, _⟩
    exact (List.pairwise_cons.mp hpw2).1 b hb
  have hka : sortKey a = "" := by simp [sortKey, ha]
  rw [hka] at hR
  have hdata : (sortKey b).data = [] := by
    rcases hd : (sortKey b).data with _ | ⟨c, cs⟩
    · rfl
    · have : pyStrLt "" (sortKey b) = true := by
        unfold pyStrLt
        rw [hd]
        simp [charLt]
      rw [this] at hR
      exact absurd hR (by simp)
  have hkb : sortKey b = "" := data_nil_eq_empty hdata
  have hbmem : b ∈ process_batch summarize docs := by
    rw [heq]
    simp [hb]
  have hb2 : b ∈ batchResults summarize docs := by
    rw [process_batch] at hbmem
    exact mem_sortByDateDesc.mp hbmem
  rcases List.mem_filterMap.mp hb2 with ⟨d, _, hmap⟩
  rcases Option.map_eq_some'.mp hmap with ⟨s, _, hbr⟩
  subst hbr
  rcases hds : extractDateString s with _ | dstr
  · simpa [mkRecord] using hds
  · have hempty : dstr = "" := by
      simpa [sortKey, mkRecord, hds] using hkb
    subst hempty
    exact absurd hds (extractDateString_ne_some_empty s)

def c5SummaryM : String := "Also dateless."

def c5DocM : Doc := ⟨"dm", "dm.txt", "text m"⟩

def c5Docs4 : List Doc := [c5Doc1, c5Doc3, c5DocN, c5DocM]

def c5Summarize4 : Doc → Option String := fun d =>
  if d.id = "dm" then some c5SummaryM else c5Summarize d

set_option maxRecDepth 8192 in
/-- C5 witness: with two dateless summaries, the record following the first
dateless one in the sorted output is dateless as well. -/
theorem C5_combined_output_sorted_witness :
    (mkRecord c5DocM c5SummaryM).date_string = none :=
  (C5_combined_output_sorted c5Summarize4 c5Docs4).2.1
    [mkRecord c5Doc3 c5Summary3, mkRecord c5Doc1 c5Summary1]
    [mkRecord c5DocM c5SummaryM]
    (mkRecord c5DocN c5SummaryN) (mkRecord c5DocM c5SummaryM)
    (by decide) (by decide) (by decide)

/-- Renaming an extracted-text key (a PDF stem) to the PDF's filename. -/
def addExt (p : String × String) : String × String := (p.1 ++ ".pdf", p.2)

theorem fsWrite_of_lookup_none {fs : TextFs} {k v : String}
    (h : fsLookup fs k = none) : fsWrite fs k v = fs ++ [(k, v)] := by
  unfold fsLookup at h
  unfold fsWrite
  rcases hf : fs.find? (fun p => p.1 = k) with _ | p
  · rw [hf]
    simp
  · rw [hf] at h
    simp at h

theorem fsLookup_append {fs : TextFs} (k v k2 : String) (h2 : k2 ≠ k) :
    fsLookup (fs ++ [(k, v)]) k2 = fsLookup fs k2 := by
  induction fs with
  | nil => simp [fsLookup, List.find?, Ne.symm h2]
  | cons p ps ih =>
    by_cases hp : p.1 = k2
    · simp [fsLookup, List.find?, hp]
    · simp only [fsLookup, List.cons_append, List.find?] at ih ⊢
      rw [show decide (p.1 = k2) = false by simp [hp]]
      exact ih

theorem processOne_fresh_fs (fo : Bool) (st : ExtState) (pdf : Pdf)
    (h : fsLookup st.fs pdf.stem = none) :
    ((processOne fo st pdf).fs = st.fs ∧
        (processOne fo st pdf).results = st.results) ∨
    (∃ t, (processOne fo st pdf).fs = st.fs ++ [(pdf.stem, t)] ∧
        (processOne fo st pdf).results = st.results ++ [(pdf.fileName, t)]) := by
  simp only [processOne, h]
  rcases hout :
      (extract_pdf fo pdf { st.stats with processed := st.stats.processed + 1 }).1
    with _ | t
  · left
    cases fo <;> simp [hout]
  · right
    refine ⟨t, ?_, ?_⟩ <;> cases fo <;> simp [hout, fsWrite_of_lookup_none h]

theorem process_directory_results (fo : Bool) :
    ∀ (pdfs : List Pdf) (st : ExtState),
      (∀ p ∈ pdfs, fsLookup st.fs p.stem = none) →
      (pdfs.map Pdf.stem).Nodup →
      st.results = st.fs.map addExt →
      (process_directory fo pdfs st).results =
        (process_directory fo pdfs st).fs.map addExt := by
  intro pdfs
  induction pdfs with
  | nil => intro st h1 h2 h3; simpa [process_directory] using h3
  | cons p ps ih =>
    intro st h1 h2 h3
    have hp : fsLookup st.fs p.stem = none := h1 p (by simp)
    have hstep : process_directory fo (p :: ps) st =
        process_directory fo ps (processOne fo st p) := by
      simp [process_directory]
    rw [hstep]
    have hnodup : p.stem ∉ ps.map Pdf.stem ∧ (ps.map Pdf.stem).Nodup := by
      rw [List.map_cons, List.nodup_cons] at h2
      exact h2
    apply ih
    · intro q hq
      have hqp : q.stem ≠ p.stem := by
        intro he
        exact hnodup.1 (he ▸ List.mem_map_of_mem Pdf.stem hq)
      rcases processOne_fresh_fs fo st p hp with ⟨hfs, _⟩ | ⟨t, hfs, _⟩
      · rw [hfs]
        exact h1 q (List.mem_cons_of_mem p hq)
      · rw [hfs, fsLookup_append p.stem t q.stem hqp]
        exact h1 q (List.mem_cons_of_mem p hq)
    · exact hnodup.2
    · rcases processOne_fresh_fs fo st p hp with ⟨hfs, hres⟩ | ⟨t, hfs, hres⟩
      · rw [hfs, hres]
        exact h3
      · rw [hfs, hres, List.map_append, h3]
        rfl

def c1Article : Article := ⟨"https://x.test/a", "A", "Sep 7 2025", "t0"⟩

def c1Pdf : Pdf :=
  ⟨"a", [⟨"0123456789012345678901234567890123456789012345678901234567890123456789012345678901234567890123456789012345678901234567890", OcrOutcome.err "none"⟩], true⟩

def c1World : World :=
  { state := { status := "pdfs_generated",
               steps_completed := ["scrape_urls", "generate_pdfs"],
               urls := [c1Article], pdfs := ["a.pdf"], texts := [],
               processed := [] },
    urlsLatest := some [c1Article],
    pdfFs := [c1Pdf],
    textFs := [] }

set_option maxRecDepth 16384 in
/-- C1 counterexample: after a completing first `step_extract_text` call on
a run with one PDF `a.pdf`, the second call (idempotent skip, collaborator
not invoked) returns a mapping keyed `"a"` (text-file stem) while the first
call's mapping was keyed `"a.pdf"` (PDF filename), so the two calls do not
return the same keys. -/
theorem C1_counterexample :
    "extract_text" ∈ (step_extract_text false c1World).2.1.state.steps_completed ∧
    (step_extract_text false (step_extract_text false c1World).2.1).2.2 = false ∧
    (step_extract_text false (step_extract_text false c1World).2.1).1 ≠
      (step_extract_text false c1World).1 := by
  decide

/-- C1 amended: for `scrape_urls`, `generate_pdfs` and `process_text`, a
second call after a completing first call returns exactly the first call's
artifacts without invoking the collaborator; for `extract_text` (run from
an empty text directory with pairwise distinct PDF stems) the second call
also invokes nothing and returns the same extracted-text values, but keyed
by file stem where the first call keyed by PDF filename. -/
theorem C1_amended_idempotence (w : World)
    (scraped scraped2 : List Article) (rendered rendered2 : List Pdf)
    (fo fo2 key key2 : Bool) (summarize summarize2 : Doc → Option String) :
    ("scrape_urls" ∉ w.state.steps_completed → scraped ≠ [] →
      (step_scrape_urls scraped2 (step_scrape_urls scraped w).2.1).1
          = (step_scrape_urls scraped w).1 ∧
      (step_scrape_urls scraped2 (step_scrape_urls scraped w).2.1).2.2 = false) ∧
    ("generate_pdfs" ∉ w.state.steps_completed → w.state.urls ≠ [] →
      (step_generate_pdfs rendered2 (step_generate_pdfs rendered w).2.1).1
          = (step_generate_pdfs rendered w).1 ∧
      (step_generate_pdfs rendered2 (step_generate_pdfs rendered w).2.1).2.2 = false) ∧
    ("extract_text" ∉ w.state.steps_completed → w.state.pdfs ≠ [] →
      w.textFs = [] → (w.pdfFs.map Pdf.stem).Nodup →
      (step_extract_text fo2 (step_extract_text fo w).2.1).2.2 = false ∧
      (step_extract_text fo2 (step_extract_text fo w).2.1).1
          = (step_extract_text fo w).2.1.textFs ∧
      (step_extract_text fo w).1
          = ((step_extract_text fo2 (step_extract_text fo w).2.1).1).map addExt) ∧
    ("process_text" ∉ w.state.steps_completed → w.state.texts ≠ [] →
      key = true → load_documents w.textFs ≠ [] →
      (step_process_text key2 summarize2 (step_process_text key summarize w).2.1).1
          = (step_process_text key summarize w).1 ∧
      (step_process_text key2 summarize2 (step_process_text key summarize w).2.1).2.2
          = false) := by
  refine ⟨fun h1 h2 => ?_, fun h1 h2 => ?_, fun h1 h2 h3 h4 => ?_,
          fun h1 h2 h3 h4 => ?_⟩
  · simp [step_scrape_urls, h1, h2]
  · simp [step_generate_pdfs, h1, h2]
  · have hinv : (process_directory fo w.pdfFs ⟨w.textFs, initStats, []⟩).results =
        (process_directory fo w.pdfFs ⟨w.textFs, initStats, []⟩).fs.map addExt := by
      apply process_directory_results
      · intro p hp
        rw [h3]
        rfl
      · exact h4
      · simp [h3]
    refine ⟨?_, ?_, ?_⟩
    · simp [step_extract_text, h1, h2]
    · simp [step_extract_text, h1, h2]
    · simpa [step_extract_text, h1, h2] using hinv
  · simp [step_process_text, h1, h2, h3, h4]

def c1WitPdf : Pdf := ⟨"a", [⟨"hello", OcrOutcome.text "ocr text here"⟩], true⟩

def c1WitWorld : World :=
  { state := { status := "initialized", steps_completed := [],
               urls := [c1Article], pdfs := ["a.pdf"], texts := [],
               processed := [] },
    urlsLatest := none, pdfFs := [c1WitPdf], textFs := [] }

def c1WitWorldB : World :=
  { state := { status := "text_extracted",
               steps_completed := ["scrape_urls", "generate_pdfs", "extract_text"],
               urls := [c1Article], pdfs := ["a.pdf"], texts := ["a.pdf"],
               processed := [] },
    urlsLatest := some [c1Article], pdfFs := [c1WitPdf],
    textFs := [("a", "extracted content")] }

def c1Summarize : Doc → Option String :=
  fun _ => some "On June 1, 2024, Morning Brew reported gamma."

set_option maxRecDepth 16384 in
/-- C1 amended witness: each stage, after a completing first call on a
concrete run, skips its collaborator on the second call. -/
theorem C1_amended_idempotence_witness :
    (step_scrape_urls [] (step_scrape_urls [c1Article] c1WitWorld).2.1).2.2 = false ∧
    (step_generate_pdfs [] (step_generate_pdfs [c1WitPdf] c1WitWorld).2.1).2.2 = false ∧
    (step_extract_text false (step_extract_text false c1WitWorld).2.1).2.2 = false ∧
    (step_process_text true c1Summarize
        (step_process_text true c1Summarize c1WitWorldB).2.1).2.2 = false :=
  ⟨((C1_amended_idempotence c1WitWorld [c1Article] [] [] [] false false true true
        c1Summarize c1Summarize).1 (by decide) (by decide)).2,
   ((C1_amended_idempotence c1WitWorld [] [] [c1WitPdf] [] false false true true
        c1Summarize c1Summarize).2.1 (by decide) (by decide)).2,
   ((C1_amended_idempotence c1WitWorld [] [] [] [] false false true true
        c1Summarize c1Summarize).2.2.1 (by decide) (by decide) rfl
        (by decide)).1,
   ((C1_amended_idempotence c1WitWorldB [] [] [] [] false false true true
        c1Summarize c1Summarize).2.2.2 (by decide) (by decide) rfl
        (by decide)).2⟩

end MBPipe
